import Mathlib

/-!
Verification development for the skill-search scoring, ranking and bucketing
engine of the repository.

The repository contains two scoring-formula variants (spec §9).  The canonical
two-dimensional coverage × expertise engine is referenced by its configuration
(`backend/scoring_algorithm.py`), its response models (`backend/api/models.py`)
and its test harness (`backend/scripts/test_scoring_and_ranking.py`), but its
implementation is not among the source files; those operations are modelled
from spec §4.3–§4.4 and are marked `Modelled from the spec`.  The legacy
additive variant (`backend/services/scoring.py`, `backend/api/routes.py`) is
embedded directly from the source.

Floating-point arithmetic is embedded as exact rational arithmetic over `ℚ`;
`round(x, 2)` is embedded as exact round-half-to-even.
-/

namespace SkillSearch

/-- Matched skill from vector search (spec §3 `MatchedSkill`;
`backend/api/models.py` class `MatchedSkill`): skill id, hierarchy level,
display title and similarity in [0,1]. -/
structure MatchedSkill where
  skill_id : String
  level : Int
  title : String
  similarity : ℚ
deriving DecidableEq, Repr

/-- Per-skill info held in a user skill index (spec §3 `UserSkillAssignment`,
§4.2 `UserSkillIndex`): self-assessed rating 1..3, hierarchy level and
ancestor chain. -/
structure UserSkillInfo where
  rating : Int
  level : Int
  ancestor_ids : List String
deriving DecidableEq, Repr

/-- User skill index (spec §4.2): association from skill id to the
user's per-skill info. -/
abbrev UserSkillIndex := List (String × UserSkillInfo)

/-- Similarity exponent from `backend/scoring_algorithm.py`
(`ScoringAlgorithmConfig.SIMILARITY_EXPONENT = 2.0`), used as the natural
exponent 2 since for a similarity `s` we have `s ** 2.0 = s ^ 2`. -/
def SIMILARITY_EXPONENT : ℕ := 2

/-- Rating-multiplier table from `backend/scoring_algorithm.py`,
`ScoringAlgorithmConfig.get_rating_multipliers()`: the dict
{1: 1.0, 2: 3.0, 3: 6.0}. -/
def getRatingMultipliers (r : Int) : Option ℚ :=
  if r = 1 then some 1.0
  else if r = 2 then some 3.0
  else if r = 3 then some 6.0
  else none

/-- Modelled from the spec: the two-dimensional ScoringEngine of spec §4.3 is
absent from the source files, so relevancy weighting (§4.3 step 1) is modelled
from the spec: `relevancy_weight(m) = similarity(m) ^ EXPONENT` with the
exponent taken from the source configuration. -/
def relevancyWeight (m : MatchedSkill) : ℚ :=
  m.similarity ^ SIMILARITY_EXPONENT

/-- Modelled from the spec: rating multiplier applied in the expertise
weighted sum (spec §4.3 step 4), looked up in the source table
`getRatingMultipliers`, with the documented baseline 1.0 as default. -/
def ratingMultiplier (r : Int) : ℚ :=
  (getRatingMultipliers r).getD 1.0

/-- Modelled from the spec: the matched skills the user actually holds
(spec §4.3 step 3), each paired with the user's per-skill info. -/
def heldMatches (idx : UserSkillIndex) (ms : List MatchedSkill) :
    List (MatchedSkill × UserSkillInfo) :=
  ms.filterMap (fun m => (idx.lookup m.skill_id).map (fun info => (m, info)))

/-- Number of query-matched skills the user holds. -/
def heldCount (idx : UserSkillIndex) (ms : List MatchedSkill) : ℕ :=
  (heldMatches idx ms).length

/-- Modelled from the spec: maximum possible coverage (spec §4.3 step 2):
`max_coverage = Σ relevancy_weight(m)` over all matched skills. -/
def maxCoverage (ms : List MatchedSkill) : ℚ :=
  (ms.map relevancyWeight).sum

/-- Modelled from the spec: per-user coverage (spec §4.3 step 3): the sum of
`relevancy_weight(m)` over the matched skills the user holds. -/
def coverageScore (idx : UserSkillIndex) (ms : List MatchedSkill) : ℚ :=
  ((heldMatches idx ms).map (fun p => relevancyWeight p.1)).sum

/-- Modelled from the spec: expertise weighted sum (spec §4.3 step 4):
`Σ relevancy_weight(m) * rating_multiplier(rating)` over matched-and-held
skills. -/
def expertiseWeightedSum (idx : UserSkillIndex) (ms : List MatchedSkill) : ℚ :=
  ((heldMatches idx ms).map
    (fun p => relevancyWeight p.1 * ratingMultiplier p.2.rating)).sum

/-- Modelled from the spec: expertise multiplier (spec §4.3 step 4):
the weighted sum divided by coverage when coverage is positive, else the
baseline 1.0. -/
def expertiseMultiplier (idx : UserSkillIndex) (ms : List MatchedSkill) : ℚ :=
  if 0 < coverageScore idx ms then
    expertiseWeightedSum idx ms / coverageScore idx ms
  else 1.0

/-- Modelled from the spec: coverage percentage (spec §3 `ScoreRecord`):
`coverage_score / max_possible_coverage * 100`, guarded to 0 on a degenerate
zero denominator (spec §4.3 failure handling). -/
def coveragePercentage (idx : UserSkillIndex) (ms : List MatchedSkill) : ℚ :=
  if 0 < maxCoverage ms then
    coverageScore idx ms / maxCoverage ms * 100
  else 0

/-- Score record produced by the two-dimensional engine for one user
(spec §3 `ScoreRecord`; `backend/api/models.py` class `ScoreBreakdown`). -/
structure ScoreRecord where
  coverage_score : ℚ
  coverage_percentage : ℚ
  expertise_multiplier : ℚ
  raw_score : ℚ
deriving DecidableEq, Repr

/-- Modelled from the spec: the ScoringEngine score operation (spec §4.3),
with `raw_score = coverage_score * expertise_multiplier` (§4.3 step 6). -/
def scoreUser (idx : UserSkillIndex) (ms : List MatchedSkill) : ScoreRecord :=
  { coverage_score := coverageScore idx ms
    coverage_percentage := coveragePercentage idx ms
    expertise_multiplier := expertiseMultiplier idx ms
    raw_score := coverageScore idx ms * expertiseMultiplier idx ms }

/-- Score record entering the RankingEngine (spec §4.4): user identity,
raw score, and the rank / display-score annotations assigned by ranking. -/
structure RankRec where
  email : String
  raw_score : ℚ
  display_score : ℚ
  rank : ℕ
deriving DecidableEq, Repr

/-- Ordering used by the ranking sort: `a` precedes `b` when `a`'s raw score
is at least `b`'s (descending; on ties the stable sort keeps input order). -/
def rankGE (a b : RankRec) : Prop := b.raw_score ≤ a.raw_score

instance : DecidableRel rankGE :=
  fun a b => inferInstanceAs (Decidable (b.raw_score ≤ a.raw_score))

instance : IsTotal RankRec rankGE := ⟨fun a b => le_total b.raw_score a.raw_score⟩

instance : IsTrans RankRec rankGE := ⟨fun _ _ _ h1 h2 => le_trans h2 h1⟩

/-- Modelled from the spec: the stable descending sort by `raw_score` used by
the RankingEngine (spec §4.4: sorted by `raw_score` descending, ties broken by
stable input order, no secondary key). -/
def sortByRawDesc (l : List RankRec) : List RankRec :=
  l.insertionSort rankGE

/-- Modelled from the spec: `top_raw_score`, the maximum raw score in the set
(spec §4.4), read off as the head of the descending-sorted records
(0 for an empty set). -/
def topRawScore (l : List RankRec) : ℚ :=
  match sortByRawDesc l with
  | [] => 0
  | r :: _ => r.raw_score

/-- Modelled from the spec: the annotation pass of the RankingEngine
(spec §4.4): assign 1-based rank by position and
`display_score = raw_score / top_raw_score * 100`, or 0 for all when the top
score is 0. -/
def assignRanks (top : ℚ) : ℕ → List RankRec → List RankRec
  | _, [] => []
  | i, r :: rs =>
    { r with
      rank := i
      display_score := if top = 0 then 0 else r.raw_score / top * 100 }
      :: assignRanks top (i + 1) rs

/-- Modelled from the spec: `rank` operation of the RankingEngine (spec §4.4):
stable descending sort by raw score, then rank and display-score
annotation anchored at the top raw score. -/
def rankUsers (l : List RankRec) : List RankRec :=
  assignRanks (topRawScore l) 1 (sortByRawDesc l)

/-- Modelled from the spec: the scoring-and-ranking pass (spec §6
`score_and_rank`, §7 zero-score handling): score every user, silently drop
zero-score users, rank the rest. -/
def scoreAndRank (users : List (String × UserSkillIndex))
    (ms : List MatchedSkill) : List RankRec :=
  rankUsers (users.filterMap (fun u =>
    let sc := scoreUser u.2 ms
    if sc.raw_score = 0 then none
    else some { email := u.1, raw_score := sc.raw_score, display_score := 0, rank := 0 }))

/-! Legacy additive engine, embedded from `backend/services/scoring.py`,
`backend/config.py` and `backend/api/routes.py`. -/

/-- Scoring weight for hierarchy level 1 (`backend/config.py`,
`Settings.level_weight_l1`). -/
def level_weight_l1 : ℚ := 0.1

/-- Scoring weight for hierarchy level 2 (`backend/config.py`,
`Settings.level_weight_l2`). -/
def level_weight_l2 : ℚ := 0.2

/-- Scoring weight for hierarchy level 3 (`backend/config.py`,
`Settings.level_weight_l3`). -/
def level_weight_l3 : ℚ := 0.5

/-- Scoring weight for hierarchy level 4 (`backend/config.py`,
`Settings.level_weight_l4`). -/
def level_weight_l4 : ℚ := 0.3

/-- Legacy rating multiplier for rating 1 (`backend/config.py`,
`Settings.rating_multiplier_1`). -/
def rating_multiplier_1 : ℚ := 1.0

/-- Legacy rating multiplier for rating 2 (`backend/config.py`,
`Settings.rating_multiplier_2`). -/
def rating_multiplier_2 : ℚ := 2.0

/-- Legacy rating multiplier for rating 3 (`backend/config.py`,
`Settings.rating_multiplier_3`). -/
def rating_multiplier_3 : ℚ := 4.0

/-- Transfer bonus per transferable technology (`backend/config.py`,
`Settings.transfer_bonus_per_tech`). -/
def transfer_bonus_per_tech : ℚ := 0.02

/-- Transfer bonus cap (`backend/config.py`, `Settings.transfer_bonus_cap`). -/
def transfer_bonus_cap : ℚ := 0.15

/-- Bucket threshold (`backend/config.py`, `Settings.excellent_min_score`). -/
def excellent_min_score : ℚ := 80

/-- Bucket threshold (`backend/config.py`, `Settings.strong_min_score`). -/
def strong_min_score : ℚ := 60

/-- Bucket threshold (`backend/config.py`, `Settings.good_min_score`). -/
def good_min_score : ℚ := 40

/-- Level-weight dict of `ScoringService.__init__`
(`self.level_weights = {1: .., 2: .., 3: .., 4: ..}`). -/
def levelWeights (level : Int) : Option ℚ :=
  if level = 1 then some level_weight_l1
  else if level = 2 then some level_weight_l2
  else if level = 3 then some level_weight_l3
  else if level = 4 then some level_weight_l4
  else none

/-- Legacy rating-multiplier dict of `ScoringService.__init__`
(`self.rating_multipliers = {1: .., 2: .., 3: ..}`). -/
def ratingMultipliersLegacy (r : Int) : Option ℚ :=
  if r = 1 then some rating_multiplier_1
  else if r = 2 then some rating_multiplier_2
  else if r = 3 then some rating_multiplier_3
  else none

/-- One element of a user's `skills` list in the user records consumed by
`ScoringService` (fields read by `_build_user_skills_map`). -/
structure UserSkillEntry where
  skill_id : String
  rating : Int
  skill_level : Int
  skill_title : String
  parent_ids : List String
deriving DecidableEq, Repr

/-- User record consumed by the legacy pipeline (identity plus `skills`). -/
structure LegacyUser where
  email : String
  skills : List UserSkillEntry
deriving DecidableEq, Repr

/-- Value stored in the user skills map built by
`ScoringService._build_user_skills_map`. -/
structure UserMapVal where
  rating : Int
  level : Int
  title : String
  parent_ids : List String
deriving DecidableEq, Repr

/-- Entry of the skills lookup built by `routes._build_skills_lookup`
(fields read by the scoring service). -/
structure SkillLookupEntry where
  title : String
  level : Int
  parent_id : Option String
  parent_ids : List String
deriving DecidableEq, Repr

/-- Skills lookup table, in insertion order (Python dict iteration order). -/
abbrev SkillsLookup := List (String × SkillLookupEntry)

/-- Python dict assignment `m[k] = v` on an insertion-ordered association
list: overwrite in place when the key exists, else append. -/
def dictInsert {α : Type} (m : List (String × α)) (k : String) (v : α) :
    List (String × α) :=
  if m.any (fun p => p.1 = k) then
    m.map (fun p => if p.1 = k then (k, v) else p)
  else m ++ [(k, v)]

/-- Embeds `ScoringService._build_user_skills_map`: fold the user's skills
into a dict keyed by skill id. -/
def buildUserSkillsMap (user : LegacyUser) : List (String × UserMapVal) :=
  user.skills.foldl
    (fun m s => dictInsert m s.skill_id
      { rating := s.rating
        level := s.skill_level
        title := s.skill_title
        parent_ids := s.parent_ids })
    []

/-- Embeds `ScoringService._get_l4_children`: ids of lookup entries with
level 4 whose `parent_id` equals the given parent, in lookup order. -/
def getL4Children (lookup : SkillsLookup) (pid : String) : List String :=
  lookup.filterMap (fun p =>
    if p.2.level = 4 ∧ p.2.parent_id = some pid then some p.1 else none)

/-- Embeds the ancestor walk of `_calculate_transfer_bonus`: first id in
`parent_ids` whose lookup entry has level 3 (Python:
`skills_lookup.get(parent_id, {}).get("level") == 3`). -/
def l3ParentOf (lookup : SkillsLookup) (parent_ids : List String) :
    Option String :=
  parent_ids.find? (fun pid =>
    match lookup.lookup pid with
    | some e => e.level == 3
    | none => false)

/-- Embeds the inner counting of `_calculate_transfer_bonus` for one matched
level-3 skill: 0 when the user holds it directly, else the number of its
level-4 children the user holds under a different (truthy) level-3 parent. -/
def transferCountFor (lookup : SkillsLookup)
    (userMap : List (String × UserMapVal)) (matchedL3Id : String) : ℕ :=
  if (userMap.lookup matchedL3Id).isSome then 0
  else
    ((getL4Children lookup matchedL3Id).filter (fun cid =>
      match userMap.lookup cid with
      | none => false
      | some uskill =>
        match l3ParentOf lookup uskill.parent_ids with
        | some p => decide (p ≠ "" ∧ p ≠ matchedL3Id)
        | none => false)).length

/-- Embeds `ScoringService._calculate_transfer_bonus`: per-tech bonus over all
matched level-3 skills, capped. -/
def transferBonusAmount (lookup : SkillsLookup)
    (userMap : List (String × UserMapVal)) (ms : List MatchedSkill) : ℚ :=
  let cnt : ℕ :=
    ((ms.filter (fun s => s.level == 3)).map
      (fun s => transferCountFor lookup userMap s.skill_id)).sum
  min ((cnt : ℚ) * transfer_bonus_per_tech) transfer_bonus_cap

/-- Embeds the per-skill loop of `ScoringService.calculate_user_score`:
`similarity * level_weights.get(level, 0.1) * rating_multipliers.get(rating, 1.0)`
summed over the matched skills the user holds, plus the transfer bonus. -/
def rawScoreLegacy (user : LegacyUser) (ms : List MatchedSkill)
    (lookup : SkillsLookup) : ℚ :=
  let umap := buildUserSkillsMap user
  (ms.map (fun m =>
    match umap.lookup m.skill_id with
    | some us =>
      m.similarity * (levelWeights m.level).getD 0.1 *
        (ratingMultipliersLegacy us.rating).getD 1.0
    | none => 0)).sum
  + transferBonusAmount lookup umap ms

/-- Embeds `ScoringService._calculate_max_possible_score`: perfect similarity
and the maximum rating multiplier for every matched skill. -/
def maxPossibleScoreLegacy (ms : List MatchedSkill) : ℚ :=
  let maxMult := max rating_multiplier_1 (max rating_multiplier_2 rating_multiplier_3)
  (ms.map (fun m => 1.0 * (levelWeights m.level).getD 0.1 * maxMult)).sum

/-- Exact embedding of Python's `round(q, 2)` (round half to even). -/
def roundTo2 (q : ℚ) : ℚ :=
  let x := q * 100
  let f : ℤ := Int.floor x
  let r := x - (f : ℚ)
  let n : ℤ :=
    if r < 1 / 2 then f
    else if 1 / 2 < r then f + 1
    else if f % 2 = 0 then f else f + 1
  (n : ℚ) / 100

/-- Embeds the normalization of `calculate_user_score` (scoring.py lines
190--198): `round(min(100.0, raw / max_possible * 100), 2)` when
`max_possible > 0`, else 0. -/
def normalizedScoreLegacy (user : LegacyUser) (ms : List MatchedSkill)
    (lookup : SkillsLookup) : ℚ :=
  let maxp := maxPossibleScoreLegacy ms
  if 0 < maxp then
    roundTo2 (min 100 (rawScoreLegacy user ms lookup / maxp * 100))
  else 0

/-- Embeds the zero-score exclusion of `routes.search_skills` (routes.py
lines 116--119): users whose rounded normalized score equals 0 are skipped
and never reach `users_scores`, hence neither `top_users` nor `buckets`. -/
def usersScoresLegacy (users : List LegacyUser) (ms : List MatchedSkill)
    (lookup : SkillsLookup) : List (String × ℚ) :=
  users.filterMap (fun u =>
    if normalizedScoreLegacy u ms lookup = 0 then none
    else some (u.email, normalizedScoreLegacy u ms lookup))

/-- User record as it enters `routes._create_score_buckets` (identity,
rounded normalized score, rank). -/
structure BucketUser where
  email : String
  score : ℚ
  rank : ℕ
deriving DecidableEq, Repr

/-- Bucket configuration triple used inside `routes._create_score_buckets`. -/
structure BucketCfg where
  name : String
  min_score : ℚ
  max_score : ℚ
deriving DecidableEq, Repr

/-- Output bucket of `routes._create_score_buckets`
(`backend/api/models.py` class `ScoreBucket`). -/
structure Bucket where
  name : String
  min_score : ℚ
  max_score : ℚ
  count : ℕ
  users : List BucketUser
deriving DecidableEq, Repr

/-- Embeds `buckets_config` of `routes._create_score_buckets`: closed ranges
with each non-top maximum 0.01 below the next minimum. -/
def bucketsConfig : List BucketCfg :=
  [ { name := "Excellent Match", min_score := excellent_min_score, max_score := 100.0 }
  , { name := "Strong Match", min_score := strong_min_score,
      max_score := excellent_min_score - 0.01 }
  , { name := "Good Match", min_score := good_min_score,
      max_score := strong_min_score - 0.01 }
  , { name := "Other Matches", min_score := 0.0,
      max_score := good_min_score - 0.01 } ]

/-- Membership test of `_create_score_buckets`:
`bucket_cfg["min_score"] <= u["score"] <= bucket_cfg["max_score"]`. -/
def inBucketRange (cfg : BucketCfg) (s : ℚ) : Prop :=
  cfg.min_score ≤ s ∧ s ≤ cfg.max_score

instance (cfg : BucketCfg) (s : ℚ) : Decidable (inBucketRange cfg s) :=
  inferInstanceAs (Decidable (cfg.min_score ≤ s ∧ s ≤ cfg.max_score))

/-- Embeds `routes._create_score_buckets`: one bucket per configuration
triple, holding the users whose score lies in its closed range. -/
def createScoreBuckets (users : List BucketUser) : List Bucket :=
  bucketsConfig.map (fun cfg =>
    let bucketUsers := users.filter (fun u => decide (inBucketRange cfg u.score))
    { name := cfg.name
      min_score := cfg.min_score
      max_score := cfg.max_score
      count := bucketUsers.length
      users := bucketUsers })

/-- Concrete user record used to exercise the legacy scoring pipeline. -/
def sampleLegacyUser : LegacyUser :=
  { email := "u@example.com"
    skills := [{ skill_id := "S1", rating := 1, skill_level := 3,
                 skill_title := "S1", parent_ids := [] }] }

/-- Concrete matched-skill list with a tiny similarity, used to exercise the
legacy rounding-based exclusion. -/
def sampleTinyMatch : List MatchedSkill :=
  [{ skill_id := "S1", level := 3, title := "S1", similarity := 0.0001 }]

/-- Concrete skills lookup consistent with `sampleTinyMatch`. -/
def sampleLookup : SkillsLookup :=
  [("S1", { title := "S1", level := 3, parent_id := none, parent_ids := [] })]

/-! Supporting lemmas for the two-dimensional engine. -/

lemma relevancyWeight_nonneg (m : MatchedSkill) : 0 ≤ relevancyWeight m := by
  unfold relevancyWeight SIMILARITY_EXPONENT
  exact sq_nonneg m.similarity

lemma ratingMultiplier_ge_one (r : Int) : 1 ≤ ratingMultiplier r := by
  unfold ratingMultiplier getRatingMultipliers
  split_ifs <;> norm_num

lemma ratingMultiplier_nonneg (r : Int) : 0 ≤ ratingMultiplier r :=
  le_trans zero_le_one (ratingMultiplier_ge_one r)

lemma mem_heldMatches {idx : UserSkillIndex} {ms : List MatchedSkill}
    {p : MatchedSkill × UserSkillInfo} (hp : p ∈ heldMatches idx ms) :
    p.1 ∈ ms ∧ idx.lookup p.1.skill_id = some p.2 := by
  unfold heldMatches at hp
  rcases List.mem_filterMap.mp hp with ⟨m, hm, hlk⟩
  rcases Option.map_eq_some'.mp hlk with ⟨info, hinfo, hpair⟩
  cases hpair
  exact ⟨hm, hinfo⟩

lemma heldMatches_append (idx : UserSkillIndex) (l1 l2 : List MatchedSkill) :
    heldMatches idx (l1 ++ l2) = heldMatches idx l1 ++ heldMatches idx l2 := by
  unfold heldMatches
  exact List.filterMap_append _ _ _

lemma coverageScore_nonneg (idx : UserSkillIndex) (ms : List MatchedSkill) :
    0 ≤ coverageScore idx ms := by
  unfold coverageScore
  refine List.sum_nonneg ?_
  intro x hx
  rcases List.mem_map.mp hx with ⟨p, _, rfl⟩
  exact relevancyWeight_nonneg p.1

lemma weightedSum_eq_zero_of_coverage_zero (idx : UserSkillIndex)
    (ms : List MatchedSkill) (h : coverageScore idx ms = 0) :
    expertiseWeightedSum idx ms = 0 := by
  unfold expertiseWeightedSum
  refine List.sum_eq_zero ?_
  intro x hx
  rcases List.mem_map.mp hx with ⟨p, hp, rfl⟩
  have hw : relevancyWeight p.1 = 0 := by
    refine List.all_zero_of_le_zero_le_of_sum_eq_zero ?_ h
      (List.mem_map_of_mem (fun q => relevancyWeight q.1) hp)
    intro y hy
    rcases List.mem_map.mp hy with ⟨q, _, rfl⟩
    exact relevancyWeight_nonneg q.1
  rw [hw, zero_mul]

lemma raw_score_eq_weightedSum (idx : UserSkillIndex) (ms : List MatchedSkill) :
    (scoreUser idx ms).raw_score = expertiseWeightedSum idx ms := by
  show coverageScore idx ms * expertiseMultiplier idx ms = expertiseWeightedSum idx ms
  unfold expertiseMultiplier
  by_cases h : 0 < coverageScore idx ms
  · rw [if_pos h, mul_comm, div_mul_cancel₀ _ (ne_of_gt h)]
  · have hz : coverageScore idx ms = 0 :=
      le_antisymm (not_lt.mp h) (coverageScore_nonneg idx ms)
    rw [if_neg h, hz, zero_mul, weightedSum_eq_zero_of_coverage_zero idx ms hz]

/-! Supporting lemmas for the ranking engine. -/

lemma sortByRawDesc_sorted (l : List RankRec) :
    List.Sorted rankGE (sortByRawDesc l) :=
  List.sorted_insertionSort rankGE l

lemma sortByRawDesc_perm (l : List RankRec) : List.Perm (sortByRawDesc l) l :=
  List.perm_insertionSort rankGE l

lemma sortByRawDesc_of_sorted {l : List RankRec} (h : List.Sorted rankGE l) :
    sortByRawDesc l = l :=
  h.insertionSort_eq

lemma filter_orderedInsert (q : ℚ) (x : RankRec) (l : List RankRec) :
    (List.orderedInsert rankGE x l).filter (fun r => decide (r.raw_score = q))
      = (x :: l).filter (fun r => decide (r.raw_score = q)) := by
  induction l with
  | nil => rfl
  | cons y ys ih =>
    by_cases hxy : rankGE x y
    · simp [List.orderedInsert, hxy]
    · have hlt : x.raw_score < y.raw_score := lt_of_not_le hxy
      by_cases hy : y.raw_score = q
      · have hx : ¬ x.raw_score = q := by
          intro hq
          rw [hq, hy] at hlt
          exact lt_irrefl q hlt
        simp [List.orderedInsert, hxy, List.filter_cons, hy, hx, ih]
      · by_cases hx : x.raw_score = q
        · simp [List.orderedInsert, hxy, List.filter_cons, hy, hx, ih]
        · simp [List.orderedInsert, hxy, List.filter_cons, hy, hx, ih]

lemma filter_sortByRawDesc (q : ℚ) (l : List RankRec) :
    (sortByRawDesc l).filter (fun r => decide (r.raw_score = q))
      = l.filter (fun r => decide (r.raw_score = q)) := by
  induction l with
  | nil => rfl
  | cons x xs ih =>
    unfold sortByRawDesc at ih
    show (List.orderedInsert rankGE x (List.insertionSort rankGE xs)).filter _ = _
    rw [filter_orderedInsert]
    by_cases hx : x.raw_score = q <;>
      simp [List.filter_cons, hx, ih]

lemma mem_assignRanks {top : ℚ} {i : ℕ} {l : List RankRec} {b : RankRec}
    (hb : b ∈ assignRanks top i l) :
    ∃ a ∈ l, b.email = a.email ∧ b.raw_score = a.raw_score
      ∧ b.display_score = (if top = 0 then 0 else a.raw_score / top * 100) := by
  induction l generalizing i with
  | nil => cases hb
  | cons r rs ih =>
    rcases List.mem_cons.mp hb with hb1 | hb2
    · exact ⟨r, List.mem_cons_self r rs, by rw [hb1], by rw [hb1], by rw [hb1]⟩
    · rcases ih hb2 with ⟨a, ha, h⟩
      exact ⟨a, List.mem_cons_of_mem r ha, h⟩

lemma assignRanks_map_raw (top : ℚ) (i : ℕ) (l : List RankRec) :
    (assignRanks top i l).map (fun r => r.raw_score) = l.map (fun r => r.raw_score) := by
  induction l generalizing i with
  | nil => rfl
  | cons r rs ih => simp [assignRanks, ih]

lemma assignRanks_map_pair (top : ℚ) (i : ℕ) (l : List RankRec) :
    (assignRanks top i l).map (fun r => (r.email, r.raw_score))
      = l.map (fun r => (r.email, r.raw_score)) := by
  induction l generalizing i with
  | nil => rfl
  | cons r rs ih => simp [assignRanks, ih]

lemma assignRanks_filter_email (top : ℚ) (i : ℕ) (q : ℚ) (l : List RankRec) :
    ((assignRanks top i l).filter (fun r => decide (r.raw_score = q))).map (fun r => r.email)
      = (l.filter (fun r => decide (r.raw_score = q))).map (fun r => r.email) := by
  induction l generalizing i with
  | nil => rfl
  | cons r rs ih =>
    by_cases h : r.raw_score = q <;>
      simp [assignRanks, List.filter_cons, h, ih]

lemma pairwise_raw (l : List RankRec) :
    List.Pairwise rankGE l
      ↔ List.Pairwise (fun a b : ℚ => b ≤ a) (l.map (fun r => r.raw_score)) := by
  rw [List.pairwise_map]
  exact Iff.rfl

lemma assignRanks_pairwise (top : ℚ) (i : ℕ) {l : List RankRec}
    (h : List.Pairwise rankGE l) :
    List.Pairwise rankGE (assignRanks top i l) := by
  rw [pairwise_raw, assignRanks_map_raw, ← pairwise_raw]
  exact h

lemma assignRanks_idem (top : ℚ) (i : ℕ) (l : List RankRec) :
    assignRanks top i (assignRanks top i l) = assignRanks top i l := by
  induction l generalizing i with
  | nil => rfl
  | cons r rs ih => simp [assignRanks, ih]

lemma topRawScore_eq_head {l : List RankRec} {x : RankRec} {xs : List RankRec}
    (hs : sortByRawDesc l = x :: xs) : topRawScore l = x.raw_score := by
  unfold topRawScore
  rw [hs]

lemma topRawScore_is_max {l : List RankRec} {r : RankRec} (hr : r ∈ l) :
    r.raw_score ≤ topRawScore l := by
  have hmem : r ∈ sortByRawDesc l := ((sortByRawDesc_perm l).mem_iff).mpr hr
  cases hs : sortByRawDesc l with
  | nil => rw [hs] at hmem; cases hmem
  | cons x xs =>
    rw [topRawScore_eq_head hs]
    rw [hs] at hmem
    have hsorted := sortByRawDesc_sorted l
    rw [hs] at hsorted
    rcases List.mem_cons.mp hmem with rfl | hmem2
    · exact le_refl _
    · exact List.rel_of_sorted_cons hsorted r hmem2

lemma topRawScore_attained {l : List RankRec} (h : l ≠ []) :
    ∃ r ∈ l, r.raw_score = topRawScore l := by
  cases hs : sortByRawDesc l with
  | nil =>
    exfalso
    exact h ((hs ▸ sortByRawDesc_perm l).symm.eq_nil)
  | cons x xs =>
    refine ⟨x, ?_, (topRawScore_eq_head hs).symm⟩
    exact ((sortByRawDesc_perm l).mem_iff).mp (hs ▸ List.mem_cons_self x xs)

lemma rankUsers_sorted (l : List RankRec) : List.Pairwise rankGE (rankUsers l) :=
  assignRanks_pairwise _ _ (sortByRawDesc_sorted l)

lemma sortByRawDesc_rankUsers (l : List RankRec) :
    sortByRawDesc (rankUsers l) = rankUsers l :=
  sortByRawDesc_of_sorted (rankUsers_sorted l)

lemma topRawScore_rankUsers (l : List RankRec) :
    topRawScore (rankUsers l) = topRawScore l := by
  unfold topRawScore
  rw [sortByRawDesc_rankUsers]
  show (match rankUsers l with
    | [] => (0 : ℚ)
    | r :: _ => r.raw_score) = _
  unfold rankUsers
  cases hs : sortByRawDesc l with
  | nil => rfl
  | cons x xs => rfl

lemma mem_rankUsers_raw {l : List RankRec} {r : RankRec} (hr : r ∈ rankUsers l) :
    ∃ a ∈ l, r.raw_score = a.raw_score := by
  rcases mem_assignRanks hr with ⟨a, ha, _, hraw, _⟩
  exact ⟨a, ((sortByRawDesc_perm l).mem_iff).mp ha, hraw⟩

/-! Supporting lemmas for the legacy bucketing code. -/

lemma div100_le_div100 (a k : ℤ) : ((a : ℚ) / 100 ≤ (k : ℚ) / 100) ↔ a ≤ k := by
  constructor
  · intro h
    have h2 : (a : ℚ) ≤ (k : ℚ) := by linarith
    exact_mod_cast h2
  · intro h
    have h2 : (a : ℚ) ≤ (k : ℚ) := by exact_mod_cast h
    linarith

lemma countP_bucketsConfig_le_one (s : ℚ) :
    bucketsConfig.countP (fun c => decide (inBucketRange c s)) ≤ 1 := by
  simp only [bucketsConfig, inBucketRange, excellent_min_score, strong_min_score,
    good_min_score, List.countP_cons, List.countP_nil, decide_eq_true_eq]
  split_ifs <;> simp_all <;> linarith

lemma countP_bucketsConfig_eq_one (k : ℤ) (h0 : 0 ≤ k) (h1 : k ≤ 10000) :
    bucketsConfig.countP (fun c => decide (inBucketRange c ((k : ℚ) / 100))) = 1 := by
  have e80 : ((80 : ℚ) ≤ (k : ℚ) / 100) ↔ ((8000 : ℤ) ≤ k) := by
    rw [show (80 : ℚ) = ((8000 : ℤ) : ℚ) / 100 by norm_num]
    exact div100_le_div100 8000 k
  have e100 : ((k : ℚ) / 100 ≤ 100.0) ↔ (k ≤ (10000 : ℤ)) := by
    rw [show (100.0 : ℚ) = ((10000 : ℤ) : ℚ) / 100 by norm_num]
    exact div100_le_div100 k 10000
  have e60 : ((60 : ℚ) ≤ (k : ℚ) / 100) ↔ ((6000 : ℤ) ≤ k) := by
    rw [show (60 : ℚ) = ((6000 : ℤ) : ℚ) / 100 by norm_num]
    exact div100_le_div100 6000 k
  have e7999 : ((k : ℚ) / 100 ≤ 80 - 0.01) ↔ (k ≤ (7999 : ℤ)) := by
    rw [show (80 : ℚ) - 0.01 = ((7999 : ℤ) : ℚ) / 100 by norm_num]
    exact div100_le_div100 k 7999
  have e40 : ((40 : ℚ) ≤ (k : ℚ) / 100) ↔ ((4000 : ℤ) ≤ k) := by
    rw [show (40 : ℚ) = ((4000 : ℤ) : ℚ) / 100 by norm_num]
    exact div100_le_div100 4000 k
  have e5999 : ((k : ℚ) / 100 ≤ 60 - 0.01) ↔ (k ≤ (5999 : ℤ)) := by
    rw [show (60 : ℚ) - 0.01 = ((5999 : ℤ) : ℚ) / 100 by norm_num]
    exact div100_le_div100 k 5999
  have e0 : ((0.0 : ℚ) ≤ (k : ℚ) / 100) ↔ ((0 : ℤ) ≤ k) := by
    rw [show (0.0 : ℚ) = ((0 : ℤ) : ℚ) / 100 by norm_num]
    exact div100_le_div100 0 k
  have e3999 : ((k : ℚ) / 100 ≤ 40 - 0.01) ↔ (k ≤ (3999 : ℤ)) := by
    rw [show (40 : ℚ) - 0.01 = ((3999 : ℤ) : ℚ) / 100 by norm_num]
    exact div100_le_div100 k 3999
  simp only [bucketsConfig, inBucketRange, excellent_min_score, strong_min_score,
    good_min_score, List.countP_cons, List.countP_nil, decide_eq_true_eq,
    e80, e100, e60, e7999, e40, e5999, e0, e3999]
  split_ifs <;> omega

lemma createScoreBuckets_mem_le_one (users : List BucketUser) (u : BucketUser) :
    (createScoreBuckets users).countP (fun b => decide (u ∈ b.users)) ≤ 1 := by
  unfold createScoreBuckets
  rw [List.countP_map]
  refine le_trans (List.countP_mono_left ?_) (countP_bucketsConfig_le_one u.score)
  intro c _ h
  simp only [Function.comp_apply, decide_eq_true_eq] at h ⊢
  exact of_decide_eq_true (List.mem_filter.mp h).2

lemma sum_bucket_filter_cons (cfgs : List BucketCfg) (u : BucketUser)
    (l : List BucketUser) :
    (cfgs.map (fun c => (((u :: l).filter (fun x => decide (inBucketRange c x.score)))).length)).sum
      = cfgs.countP (fun c => decide (inBucketRange c u.score))
        + (cfgs.map (fun c => ((l.filter (fun x => decide (inBucketRange c x.score)))).length)).sum := by
  induction cfgs with
  | nil => rfl
  | cons c cs ih =>
    simp only [List.map_cons, List.sum_cons, List.countP_cons]
    rw [ih]
    by_cases h : inBucketRange c u.score <;>
      simp [List.filter_cons, h] <;> omega

lemma sum_bucket_lengths (users : List BucketUser) :
    (∀ u ∈ users, ∃ k : ℤ, 0 ≤ k ∧ k ≤ 10000 ∧ u.score = (k : ℚ) / 100) →
    (bucketsConfig.map
        (fun c => ((users.filter (fun x => decide (inBucketRange c x.score)))).length)).sum
      = users.length := by
  induction users with
  | nil => intro _; simp
  | cons u l ih =>
    intro h
    rw [sum_bucket_filter_cons]
    rcases h u (List.mem_cons_self u l) with ⟨k, hk0, hk1, hks⟩
    rw [hks, countP_bucketsConfig_eq_one k hk0 hk1,
      ih (fun v hv => h v (List.mem_cons_of_mem u hv))]
    simp [Nat.add_comm]

/-! Claim theorems. -/

/-- C1: For a MatchSet with the single skill S1 at level 3 and similarity 0.9
and a user holding S1 at rating 3, the scoring operation produces
relevancy weight 0.81, coverage score 0.81, max coverage 0.81, coverage
percentage 100.0, expertise multiplier 6.0 and raw score 4.86. -/
theorem scoring_c1_scenario_a :
    relevancyWeight { skill_id := "S1", level := 3, title := "S1", similarity := 0.9 } = 0.81
    ∧ maxCoverage [{ skill_id := "S1", level := 3, title := "S1", similarity := 0.9 }] = 0.81
    ∧ scoreUser [("S1", { rating := 3, level := 3, ancestor_ids := [] })]
        [{ skill_id := "S1", level := 3, title := "S1", similarity := 0.9 }]
      = { coverage_score := 0.81, coverage_percentage := 100.0,
          expertise_multiplier := 6.0, raw_score := 4.86 } := by
  refine ⟨?_, ?_, ?_⟩
  · show (0.9 : ℚ) ^ SIMILARITY_EXPONENT = 0.81
    norm_num [SIMILARITY_EXPONENT]
  · simp [maxCoverage, relevancyWeight, SIMILARITY_EXPONENT]
    norm_num
  · simp [scoreUser, coverageScore, coveragePercentage, expertiseMultiplier,
      expertiseWeightedSum, maxCoverage, heldMatches, relevancyWeight,
      ratingMultiplier, getRatingMultipliers, SIMILARITY_EXPONENT, List.lookup]
    norm_num

/-- C2: The rating multiplier table used by the two-dimensional scoring
operation maps rating 1 to 1.0, rating 2 to 3.0, rating 3 to 6.0 by default,
and every matched-and-held skill contributes
`relevancy_weight * multiplier(rating)` to the expertise weighted sum with
exactly those values. -/
theorem scoring_c2_rating_multipliers :
    getRatingMultipliers 1 = some 1.0
    ∧ getRatingMultipliers 2 = some 3.0
    ∧ getRatingMultipliers 3 = some 6.0
    ∧ ∀ (idx : UserSkillIndex) (ms : List MatchedSkill),
        (∀ p ∈ heldMatches idx ms, p.2.rating = 1 ∨ p.2.rating = 2 ∨ p.2.rating = 3) →
        expertiseWeightedSum idx ms
          = ((heldMatches idx ms).map (fun p => relevancyWeight p.1 *
              (if p.2.rating = 1 then 1.0 else if p.2.rating = 2 then 3.0 else 6.0))).sum := by
  refine ⟨by norm_num [getRatingMultipliers], by norm_num [getRatingMultipliers],
    by norm_num [getRatingMultipliers], ?_⟩
  intro idx ms h
  unfold expertiseWeightedSum
  refine congrArg List.sum (List.map_congr_left ?_)
  intro p hp
  rcases h p hp with h1 | h2 | h3
  · norm_num [ratingMultiplier, getRatingMultipliers, h1]
  · norm_num [ratingMultiplier, getRatingMultipliers, h2]
  · norm_num [ratingMultiplier, getRatingMultipliers, h3]

/-- Witness for C2 at a concrete index and match set whose single held skill
has rating 2. -/
theorem scoring_c2_rating_multipliers_witness :
    expertiseWeightedSum [("S1", { rating := 2, level := 3, ancestor_ids := [] })]
        [{ skill_id := "S1", level := 3, title := "S1", similarity := 0.9 }]
      = ((heldMatches [("S1", { rating := 2, level := 3, ancestor_ids := [] })]
            [{ skill_id := "S1", level := 3, title := "S1", similarity := 0.9 }]).map
          (fun p => relevancyWeight p.1 *
            (if p.2.rating = 1 then 1.0 else if p.2.rating = 2 then 3.0 else 6.0))).sum :=
  scoring_c2_rating_multipliers.2.2.2 _ _ (by
    intro p hp
    simp [heldMatches, List.lookup] at hp
    rw [hp]
    norm_num)

/-- C3: After ranking a non-empty record set, the top raw score is the maximum
raw score in the set, every ranked record's display score equals
`raw_score / top_raw_score * 100` (0 for all when the top score is 0), and the
top-ranked record has rank 1 and display score 100 (or 0 in the degenerate
zero-top case). -/
theorem ranking_c3_display_anchoring (l : List RankRec) (h : l ≠ []) :
    (∀ r ∈ l, r.raw_score ≤ topRawScore l)
    ∧ (∃ r ∈ l, r.raw_score = topRawScore l)
    ∧ (∀ r ∈ rankUsers l,
        r.display_score = if topRawScore l = 0 then 0 else r.raw_score / topRawScore l * 100)
    ∧ (∃ r rs, rankUsers l = r :: rs ∧ r.rank = 1
        ∧ r.display_score = (if topRawScore l = 0 then 0 else 100)) := by
  refine ⟨fun r hr => topRawScore_is_max hr, topRawScore_attained h, ?_, ?_⟩
  · intro r hr
    rcases mem_assignRanks hr with ⟨a, _, _, hraw, hdisp⟩
    rw [hdisp, hraw]
  · cases hs : sortByRawDesc l with
    | nil =>
      exfalso
      exact h ((hs ▸ sortByRawDesc_perm l).symm.eq_nil)
    | cons x xs =>
      refine ⟨({ x with
                  rank := 1,
                  display_score :=
                    if topRawScore l = 0 then 0 else x.raw_score / topRawScore l * 100 }),
        assignRanks (topRawScore l) 2 xs, ?_, rfl, ?_⟩
      · show assignRanks (topRawScore l) 1 (sortByRawDesc l) = _
        rw [hs]
        rfl
      · show (if topRawScore l = 0 then (0 : ℚ) else x.raw_score / topRawScore l * 100)
          = (if topRawScore l = 0 then 0 else 100)
        rw [topRawScore_eq_head hs]
        by_cases hz : x.raw_score = 0
        · rw [if_pos hz, if_pos hz]
        · rw [if_neg hz, if_neg hz, div_self hz, one_mul]

/-- Witness for C3 at a concrete two-record set. -/
theorem ranking_c3_display_anchoring_witness :
    ∃ r rs, rankUsers [{ email := "a", raw_score := 2, display_score := 0, rank := 0 },
        { email := "b", raw_score := 1, display_score := 0, rank := 0 }] = r :: rs
      ∧ r.rank = 1
      ∧ r.display_score
        = (if topRawScore [{ email := "a", raw_score := 2, display_score := 0, rank := 0 },
            { email := "b", raw_score := 1, display_score := 0, rank := 0 }] = 0 then 0 else 100) :=
  (ranking_c3_display_anchoring _ (by simp)).2.2.2

/-- C4: The ranking operation returns the records sorted by raw score
descending (pairwise, hence at every adjacent index), it is a permutation of
its input, and records with equal raw score keep their input order with no
secondary tie-break key (the filter at any score value is preserved). -/
theorem ranking_c4_sorted_stable (l : List RankRec) :
    List.Pairwise rankGE (rankUsers l)
    ∧ List.Perm ((rankUsers l).map (fun r => (r.email, r.raw_score)))
        (l.map (fun r => (r.email, r.raw_score)))
    ∧ ∀ q : ℚ,
        ((rankUsers l).filter (fun r => decide (r.raw_score = q))).map (fun r => r.email)
          = (l.filter (fun r => decide (r.raw_score = q))).map (fun r => r.email) := by
  refine ⟨rankUsers_sorted l, ?_, ?_⟩
  · show ((assignRanks (topRawScore l) 1 (sortByRawDesc l)).map _).Perm _
    rw [assignRanks_map_pair]
    exact (sortByRawDesc_perm l).map _
  · intro q
    show (((assignRanks (topRawScore l) 1 (sortByRawDesc l)).filter _).map _) = _
    rw [assignRanks_filter_email, filter_sortByRawDesc]

/-- C5 counterexample: a user holding the single matched skill whose
similarity is 0 has coverage percentage 0 and raw score 0 while holding one
matched skill, refuting the biconditional of the claim. -/
theorem scoring_c5_counterexample :
    (scoreUser [("S1", { rating := 2, level := 3, ancestor_ids := [] })]
        [{ skill_id := "S1", level := 3, title := "S1", similarity := 0 }]).coverage_percentage = 0
    ∧ (scoreUser [("S1", { rating := 2, level := 3, ancestor_ids := [] })]
        [{ skill_id := "S1", level := 3, title := "S1", similarity := 0 }]).raw_score = 0
    ∧ heldCount [("S1", { rating := 2, level := 3, ancestor_ids := [] })]
        [{ skill_id := "S1", level := 3, title := "S1", similarity := 0 }] = 1 := by
  refine ⟨?_, ?_, ?_⟩
  · simp [scoreUser, coveragePercentage, coverageScore, maxCoverage, heldMatches,
      relevancyWeight, SIMILARITY_EXPONENT, List.lookup]
  · simp [scoreUser, coverageScore, expertiseMultiplier, expertiseWeightedSum, heldMatches,
      relevancyWeight, SIMILARITY_EXPONENT, List.lookup]
  · simp [heldCount, heldMatches, List.lookup]

/-- C5 amended: a user holding zero matched skills has coverage percentage 0
and raw score 0; conversely, when every matched similarity is strictly
positive, zero coverage percentage and zero raw score imply zero held skills
(a held skill of similarity 0 breaks the unrestricted converse); and the
ranked output of the scoring-and-ranking pass contains no zero-raw-score
record, so zero-score users are silently excluded. -/
theorem scoring_c5_amended (idx : UserSkillIndex) (ms : List MatchedSkill) :
    (heldCount idx ms = 0 →
      (scoreUser idx ms).coverage_percentage = 0 ∧ (scoreUser idx ms).raw_score = 0)
    ∧ ((∀ m ∈ ms, 0 < m.similarity) → (scoreUser idx ms).coverage_percentage = 0 →
        (scoreUser idx ms).raw_score = 0 → heldCount idx ms = 0)
    ∧ (∀ (users : List (String × UserSkillIndex)), ∀ r ∈ scoreAndRank users ms,
        r.raw_score ≠ 0) := by
  refine ⟨?_, ?_, ?_⟩
  · intro h0
    have hempty : heldMatches idx ms = [] := List.length_eq_zero.mp h0
    have hcov : coverageScore idx ms = 0 := by
      unfold coverageScore
      rw [hempty]
      simp
    constructor
    · show coveragePercentage idx ms = 0
      unfold coveragePercentage
      split_ifs with hmx
      · rw [hcov]
        simp
      · rfl
    · rw [raw_score_eq_weightedSum]
      exact weightedSum_eq_zero_of_coverage_zero idx ms hcov
  · intro hpos hpct _hraw
    by_contra hne
    have hheld : heldMatches idx ms ≠ [] := by
      intro he
      apply hne
      unfold heldCount
      rw [he]
      rfl
    have hcovpos : 0 < coverageScore idx ms := by
      unfold coverageScore
      refine List.sum_pos _ ?_ ?_
      · intro x hx
        rcases List.mem_map.mp hx with ⟨p, hp, rfl⟩
        have hsim := hpos p.1 (mem_heldMatches hp).1
        unfold relevancyWeight
        exact pow_pos hsim SIMILARITY_EXPONENT
      · intro hmn
        exact hheld (List.map_eq_nil_iff.mp hmn)
    have hpct2 : coveragePercentage idx ms = 0 := hpct
    by_cases hmax : 0 < maxCoverage ms
    · rw [coveragePercentage, if_pos hmax] at hpct2
      have hc0 : coverageScore idx ms = 0 := by
        rcases mul_eq_zero.mp hpct2 with hd | h100
        · rcases div_eq_zero_iff.mp hd with hc | hm
          · exact hc
          · exact absurd hm (ne_of_gt hmax)
        · norm_num at h100
      linarith
    · apply hmax
      have hmsne : ms ≠ [] := by
        intro hnil
        apply hheld
        rw [hnil]
        rfl
      unfold maxCoverage
      refine List.sum_pos _ ?_ ?_
      · intro x hx
        rcases List.mem_map.mp hx with ⟨m, hm, rfl⟩
        unfold relevancyWeight
        exact pow_pos (hpos m hm) SIMILARITY_EXPONENT
      · intro hmn
        exact hmsne (List.map_eq_nil_iff.mp hmn)
  · intro users r hr
    rcases mem_rankUsers_raw hr with ⟨a, ha, hraw⟩
    rcases List.mem_filterMap.mp ha with ⟨u, _, heq⟩
    by_cases hz : (scoreUser u.2 ms).raw_score = 0
    · rw [if_pos hz] at heq
      cases heq
    · rw [if_neg hz] at heq
      cases heq
      rw [hraw]
      exact hz

/-- Witness for C5 at the empty index against a one-element match set. -/
theorem scoring_c5_amended_witness :
    heldCount ([] : UserSkillIndex)
        [{ skill_id := "S1", level := 3, title := "S1", similarity := 0.9 }] = 0
    ∧ (scoreUser ([] : UserSkillIndex)
        [{ skill_id := "S1", level := 3, title := "S1", similarity := 0.9 }]).coverage_percentage = 0
    ∧ (scoreUser ([] : UserSkillIndex)
        [{ skill_id := "S1", level := 3, title := "S1", similarity := 0.9 }]).raw_score = 0 := by
  have h0 : heldCount ([] : UserSkillIndex)
      [{ skill_id := "S1", level := 3, title := "S1", similarity := 0.9 }] = 0 := by
    simp [heldCount, heldMatches]
  have h := (scoring_c5_amended ([] : UserSkillIndex)
    [{ skill_id := "S1", level := 3, title := "S1", similarity := 0.9 }]).1 h0
  exact ⟨h0, h.1, h.2⟩

/-- C7: The ranking operation is idempotent: ranking an already-ranked,
unmodified record sequence returns the identical sequence, hence identical
rank and display-score values for every record. -/
theorem ranking_c7_idempotent (l : List RankRec) :
    rankUsers (rankUsers l) = rankUsers l := by
  show assignRanks (topRawScore (rankUsers l)) 1 (sortByRawDesc (rankUsers l)) = rankUsers l
  rw [topRawScore_rankUsers, sortByRawDesc_rankUsers]
  show assignRanks (topRawScore l) 1 (assignRanks (topRawScore l) 1 (sortByRawDesc l))
    = rankUsers l
  rw [assignRanks_idem]
  rfl

/-- C8: For a user who holds a given matched skill, raising that skill's
similarity while holding every other input fixed never decreases the user's
raw score. -/
theorem scoring_c8_monotonicity (idx : UserSkillIndex) (pre post : List MatchedSkill)
    (m : MatchedSkill) (s2 : ℚ) (hheld : (idx.lookup m.skill_id).isSome = true)
    (h0 : 0 ≤ m.similarity) (h1 : m.similarity ≤ s2) :
    (scoreUser idx (pre ++ m :: post)).raw_score
      ≤ (scoreUser idx (pre ++ { m with similarity := s2 } :: post)).raw_score := by
  rcases Option.isSome_iff_exists.mp hheld with ⟨info, hinfo⟩
  have hc1 : heldMatches idx (m :: post) = (m, info) :: heldMatches idx post := by
    simp [heldMatches, List.filterMap_cons, hinfo]
  have hc2 : heldMatches idx ({ m with similarity := s2 } :: post)
      = ({ m with similarity := s2 }, info) :: heldMatches idx post := by
    simp [heldMatches, List.filterMap_cons, hinfo]
  rw [raw_score_eq_weightedSum, raw_score_eq_weightedSum]
  unfold expertiseWeightedSum
  rw [heldMatches_append, heldMatches_append, List.map_append, List.map_append,
    List.sum_append, List.sum_append, hc1, hc2]
  simp only [List.map_cons, List.sum_cons]
  refine add_le_add_left (add_le_add ?_ le_rfl) _
  refine mul_le_mul_of_nonneg_right ?_ (ratingMultiplier_nonneg info.rating)
  unfold relevancyWeight
  exact pow_le_pow_left h0 h1 SIMILARITY_EXPONENT

/-- Witness for C8: raising the held skill's similarity from 0.5 to 0.9. -/
theorem scoring_c8_monotonicity_witness :
    ((([("S1", { rating := 3, level := 3, ancestor_ids := [] })] : UserSkillIndex).lookup
        ({ skill_id := "S1", level := 3, title := "S1", similarity := 0.5 } : MatchedSkill).skill_id).isSome = true)
    ∧ (scoreUser [("S1", { rating := 3, level := 3, ancestor_ids := [] })]
          ([] ++ { skill_id := "S1", level := 3, title := "S1", similarity := 0.5 } :: [])).raw_score
        ≤ (scoreUser [("S1", { rating := 3, level := 3, ancestor_ids := [] })]
          ([] ++ { ({ skill_id := "S1", level := 3, title := "S1", similarity := 0.5 } : MatchedSkill) with
            similarity := 0.9 } :: [])).raw_score :=
  ⟨by simp [List.lookup],
   scoring_c8_monotonicity _ [] [] _ 0.9 (by simp [List.lookup])
     (by show (0 : ℚ) ≤ 0.5; norm_num) (by show (0.5 : ℚ) ≤ 0.9; norm_num)⟩

/-- C6 counterexample: a ranked-tail user with display score 79.995 falls in
the 0.01-wide gap between the Strong and Excellent ranges, lands in none of
the four configured buckets, and no remainder bucket or error surfaces the
loss. -/
theorem bucketing_c6_counterexample :
    ((createScoreBuckets [{ email := "x", score := 79.995, rank := 6 }]).map
        (fun b => b.users.length)).sum = 0
    ∧ (createScoreBuckets [{ email := "x", score := 79.995, rank := 6 }]).length = 4 := by
  constructor
  · simp [createScoreBuckets, bucketsConfig, inBucketRange, excellent_min_score,
      strong_min_score, good_min_score, List.filter]
    norm_num
  · rfl

/-- C6 amended: no user is ever placed in more than one bucket, and for every
ranked tail whose scores are two-decimal values in [0, 100] — as all scores
produced by the pipeline's rounding are — the bucket sizes add up to the
number of users, so no user is dropped; a score inside a 0.01-wide gap
(necessarily not a two-decimal value) is silently dropped by the code. -/
theorem bucketing_c6_amended :
    (∀ (users : List BucketUser) (u : BucketUser),
        (createScoreBuckets users).countP (fun b => decide (u ∈ b.users)) ≤ 1)
    ∧ ∀ users : List BucketUser,
        (∀ u ∈ users, ∃ k : ℤ, 0 ≤ k ∧ k ≤ 10000 ∧ u.score = (k : ℚ) / 100) →
        ((createScoreBuckets users).map (fun b => b.users.length)).sum = users.length := by
  refine ⟨createScoreBuckets_mem_le_one, ?_⟩
  intro users h
  have hsum := sum_bucket_lengths users h
  unfold createScoreBuckets
  rw [List.map_map]
  exact hsum

/-- Witness for C6 at a one-user tail with the two-decimal score 85.00. -/
theorem bucketing_c6_amended_witness :
    ((createScoreBuckets [{ email := "y", score := 85, rank := 7 }]).map
        (fun b => b.users.length)).sum
      = ([{ email := "y", score := 85, rank := 7 }] : List BucketUser).length :=
  bucketing_c6_amended.2 _ (by
    intro u hu
    rw [List.mem_singleton] at hu
    refine ⟨8500, by norm_num, by norm_num, ?_⟩
    rw [hu]
    show (85 : ℚ) = ((8500 : ℤ) : ℚ) / 100
    norm_num)

/-- C10: The search operation's exclusion test compares the 2-decimal-rounded
normalized score against 0: at this concrete input the user's legacy raw score
is strictly positive, yet the rounded normalized score is 0, so the user is
excluded from the scored list and hence from both top users and buckets. -/
theorem legacy_c10_rounding_exclusion :
    0 < rawScoreLegacy sampleLegacyUser sampleTinyMatch sampleLookup
    ∧ normalizedScoreLegacy sampleLegacyUser sampleTinyMatch sampleLookup = 0
    ∧ usersScoresLegacy [sampleLegacyUser] sampleTinyMatch sampleLookup = [] := by
  simp [rawScoreLegacy, normalizedScoreLegacy, usersScoresLegacy, maxPossibleScoreLegacy,
    buildUserSkillsMap, dictInsert, transferBonusAmount, transferCountFor, getL4Children,
    l3ParentOf, levelWeights, ratingMultipliersLegacy, roundTo2,
    level_weight_l1, level_weight_l2, level_weight_l3, level_weight_l4,
    rating_multiplier_1, rating_multiplier_2, rating_multiplier_3,
    transfer_bonus_per_tech, transfer_bonus_cap,
    sampleLegacyUser, sampleTinyMatch, sampleLookup, List.lookup]
  norm_num [Int.fract, show ((1 : ℚ) / 4) - ((0 : ℤ) : ℚ) = 1 / 4 from by norm_num,
    show Int.floor ((1 : ℚ) / 4) = 0 from by norm_num]

end SkillSearch
